import Mathlib

/-!
Shallow embedding of the adaptive scraping-orchestration core of the
repository (advanced_scraper.py, flask_scraper_app.py): proxy pool,
adaptive rate limiter, retry executor, data validator, performance
monitor, and the per-URL scrape orchestration plus the batch job loop.
Machine floats are modelled as rationals, Python ints as integers.
-/

namespace Scraper

/-- Mirror of the `ProxyInfo` dataclass: one record per configured proxy
address, with the dataclass defaults health=100, response_time=0,
last_used=0, success_count=0, failure_count=0. -/
structure ProxyInfo where
  url : String
  health : ℤ
  response_time : ℚ
  last_used : ℚ
  success_count : ℕ
  failure_count : ℕ
deriving DecidableEq

/-- Strict lexicographic comparison of triples, mirroring Python tuple
comparison `(a,b,c) < (d,e,f)` on the key tuples used by proxy selection. -/
def lex3Lt {α β γ : Type} [LinearOrder α] [LinearOrder β] [LinearOrder γ]
    (a b : α × β × γ) : Bool :=
  decide (a.1 < b.1 ∨ (a.1 = b.1 ∧ (a.2.1 < b.2.1 ∨ (a.2.1 = b.2.1 ∧ a.2.2 < b.2.2))))

/-- Selection key of `ProxyManager.get_best_proxy`:
`(x.response_time, -x.health, x.last_used)`. -/
def proxyKey (p : ProxyInfo) : ℚ × ℤ × ℚ := (p.response_time, -p.health, p.last_used)

/-- List indexed from a starting position, mirroring iteration over the
proxy list by position (Python objects are distinguished by identity, which
the index models). -/
def enumFrom {α : Type} : ℕ → List α → List (ℕ × α)
  | _, [] => []
  | n, a :: as => (n, a) :: enumFrom (n + 1) as

/-- Fold computing the first minimum of a list under the strict key order,
mirroring Python `min(..., key=...)`, which keeps the earliest element
among ties. -/
def foldBest (x : ℕ × ProxyInfo) (xs : List (ℕ × ProxyInfo)) : ℕ × ProxyInfo :=
  xs.foldl (fun best y => if lex3Lt (proxyKey y.2) (proxyKey best.2) then y else best) x

/-- Records with health strictly above 50 (`healthy_proxies` in
`get_best_proxy`), paired with their position. -/
def healthyCands (pool : List ProxyInfo) : List (ℕ × ProxyInfo) :=
  (enumFrom 0 pool).filter (fun ip => decide (50 < ip.2.health))

/-- Records with health strictly above 0 (`available_proxies` in
`get_best_proxy`), paired with their position. -/
def availableCands (pool : List ProxyInfo) : List (ℕ × ProxyInfo) :=
  (enumFrom 0 pool).filter (fun ip => decide (0 < ip.2.health))

/-- Candidate set of `get_best_proxy`: the health>50 records, widened to
the health>0 records when no record has health>50. -/
def candsOf (pool : List ProxyInfo) : List (ℕ × ProxyInfo) :=
  if (healthyCands pool).isEmpty then availableCands pool else healthyCands pool

/-- Mirror of `ProxyManager.get_best_proxy`: picks the candidate minimizing
`(response_time, -health, last_used)`, stamps its `last_used` with the
current time, and returns its url; returns `none` (and leaves the pool
unchanged) when no candidate exists. -/
def get_best_proxy (pool : List ProxyInfo) (now : ℚ) : Option String × List ProxyInfo :=
  match candsOf pool with
  | [] => (none, pool)
  | c :: cs =>
    let best := foldBest c cs
    (some best.2.url, pool.set best.1 { best.2 with last_used := now })

/-- Mirror of `ProxyManager.update_proxy_performance`: scans the pool in
order, updates the first record whose url matches and stops (the `break`),
clamping health to [0,100]. -/
def update_proxy_performance :
    List ProxyInfo → String → Bool → ℚ → List ProxyInfo
  | [], _, _, _ => []
  | p :: ps, proxy_url, success, response_time =>
    if p.url = proxy_url then
      (if success then
        { p with health := min 100 (p.health + 5),
                 success_count := p.success_count + 1,
                 response_time := response_time }
      else
        { p with health := max 0 (p.health - 20),
                 failure_count := p.failure_count + 1 }) :: ps
    else
      p :: update_proxy_performance ps proxy_url success response_time

/-- Mirror of the `AdaptiveRateLimiter` state: base/current delay, the
consecutive success/failure counters and the fixed bounds. -/
structure RateState where
  base_delay : ℚ
  current_delay : ℚ
  success_count : ℕ
  failure_count : ℕ
  min_delay : ℚ
  max_delay : ℚ
deriving DecidableEq

/-- Mirror of `AdaptiveRateLimiter.__init__`: current delay starts at the
base delay, counters at 0, with the hardcoded bounds 0.5 and 10.0. -/
def rateInit (base : ℚ) : RateState :=
  { base_delay := base, current_delay := base, success_count := 0,
    failure_count := 0, min_delay := 1/2, max_delay := 10 }

/-- Mirror of `AdaptiveRateLimiter.adjust_delay`, state part only (the
returned value is the stored current delay scaled by random jitter, which
is not part of the stored state). -/
def adjust_delay (s : RateState) (success : Bool) : RateState :=
  if success then
    let s1 := { s with success_count := s.success_count + 1, failure_count := 0 }
    if 5 < s1.success_count then
      { s1 with current_delay := max s1.min_delay (s1.current_delay * (9/10)) }
    else s1
  else
    { s with failure_count := s.failure_count + 1, success_count := 0,
             current_delay := min s.max_delay (s.current_delay * (3/2)) }

/-- State reached from a freshly constructed rate limiter after a finite
sequence of success/failure calls. -/
def rateRun (base : ℚ) (calls : List Bool) : RateState :=
  calls.foldl adjust_delay (rateInit base)

/-- Link entry extracted into `data['links']`. -/
structure LinkItem where
  url : String
  text : String
deriving DecidableEq

/-- Fields of the extracted-page dictionary that
`DataValidator.validate_scraped_data` consumes. -/
structure PageData where
  title : String
  paragraphs : List String
  links : List LinkItem
deriving DecidableEq

/-- Result dictionary of `DataValidator.validate_scraped_data`. -/
structure ValidationResult where
  quality_score : ℤ
  is_valid : Bool
  issues : List String
  content_length : ℕ
  paragraph_count : ℕ
deriving DecidableEq

/-- Whether `pat` occurs as a contiguous prefix of `hay`, first step of the
Python substring test. -/
def startsWith : List Char → List Char → Bool
  | _, [] => true
  | [], _ :: _ => false
  | h :: hs, p :: ps => decide (h = p) && startsWith hs ps

/-- Python substring containment `pat in hay` on character lists. -/
def hasSub : List Char → List Char → Bool
  | [], pat => pat.isEmpty
  | h :: hs, pat => startsWith (h :: hs) pat || hasSub hs pat

/-- ASCII whitespace recognised by the model of Python `str.strip`. -/
def isSpaceChar (c : Char) : Bool :=
  decide (c = ' ') || decide (c = '\t') || decide (c = '\n') || decide (c = '\r')

/-- Model of Python `str.strip` on character lists: drop whitespace from
both ends. -/
def trimChars (l : List Char) : List Char :=
  ((l.dropWhile isSpaceChar).reverse.dropWhile isSpaceChar).reverse

/-- Model of Python `str.lower` on one ASCII character. -/
def lowerChar (c : Char) : Char :=
  if decide ('A' ≤ c) && decide (c ≤ 'Z') then Char.ofNat (c.toNat + 32) else c

/-- Model of Python `str.lower` on character lists. -/
def lowerChars (l : List Char) : List Char := l.map lowerChar

/-- The fixed `suspicious_keywords` list of `DataValidator`. -/
def suspicious_keywords : List String :=
  ["captcha", "robot", "blocked", "access denied", "forbidden",
   "rate limit", "too many requests", "bot detection"]

/-- Mirror of `DataValidator.validate_scraped_data`: additive scoring with
a bot-detection penalty, score clamped at 0 in the result, and
`is_valid` computed from the unclamped score. -/
def validate_scraped_data (d : PageData) : ValidationResult :=
  let sc1 : ℤ := if d.title ≠ "" ∧ 5 < (trimChars d.title.toList).length then 20 else 0
  let is1 : List String :=
    if d.title ≠ "" ∧ 5 < (trimChars d.title.toList).length then []
    else ["Missing or short title"]
  let paragraph_count := d.paragraphs.length
  let total_content_length := (d.paragraphs.map String.length).sum
  let sc2 : ℤ :=
    if 3 < paragraph_count ∧ 500 < total_content_length then sc1 + 30
    else if 0 < paragraph_count ∧ 100 < total_content_length then sc1 + 15
    else sc1
  let is2 : List String :=
    if 3 < paragraph_count ∧ 500 < total_content_length then is1
    else if 0 < paragraph_count ∧ 100 < total_content_length then is1
    else is1 ++ ["No meaningful content found"]
  let sc3 : ℤ := if d.links ≠ [] then sc2 + 10 else sc2
  let content_text := lowerChars (String.intercalate " " d.paragraphs).toList
  let hit := suspicious_keywords.any (fun kw => hasSub content_text kw.toList)
  let sc4 : ℤ := if hit then sc3 - 50 else sc3
  let is4 : List String := if hit then is2 ++ ["Possible bot detection page"] else is2
  { quality_score := max 0 sc4,
    is_valid := decide (40 < sc4),
    issues := is4,
    content_length := total_content_length,
    paragraph_count := paragraph_count }

/-- Mirror of the `PerformanceMonitor` state: counters, the two bounded
sample windows, the derived aggregates and the current alert list. -/
structure Monitor where
  total_requests : ℕ
  successful_requests : ℕ
  failed_requests : ℕ
  response_times : List ℚ
  quality_scores : List ℤ
  success_rate : ℚ
  average_response_time : ℚ
  average_quality_score : ℚ
  alerts : List String
deriving DecidableEq

/-- Mirror of `PerformanceMonitor.__init__`. -/
def monitorInit : Monitor :=
  { total_requests := 0, successful_requests := 0, failed_requests := 0,
    response_times := [], quality_scores := [],
    success_rate := 0, average_response_time := 0, average_quality_score := 0,
    alerts := [] }

/-- Append a sample and evict the oldest once the buffer passes capacity
100 (`append` then `pop(0)`). -/
def pushWindow {α : Type} (l : List α) (x : α) : List α :=
  let l2 := l ++ [x]
  if 100 < l2.length then l2.tail else l2

/-- Mirror of `PerformanceMonitor._update_metrics`: recompute each average
only over a nonempty window, leaving the stale value otherwise. -/
def updateMetrics (m : Monitor) : Monitor :=
  let m1 :=
    if 0 < m.total_requests then
      { m with success_rate := (m.successful_requests : ℚ) / (m.total_requests : ℚ) }
    else m
  let m2 :=
    if m1.response_times.isEmpty then m1
    else { m1 with average_response_time :=
            m1.response_times.sum / (m1.response_times.length : ℚ) }
  if m2.quality_scores.isEmpty then m2
  else { m2 with average_quality_score :=
          ((m2.quality_scores.sum : ℤ) : ℚ) / (m2.quality_scores.length : ℚ) }

/-- Mirror of `PerformanceMonitor._check_performance_alerts`: the alert
list is rebuilt from scratch from the current aggregates. -/
def computeAlerts (m : Monitor) : List String :=
  (if m.success_rate < 4/5 ∧ 10 < m.total_requests
    then ["Low success rate detected"] else []) ++
  (if 10 < m.average_response_time
    then ["High response times detected"] else []) ++
  (if m.average_quality_score < 50 ∧ 5 < m.quality_scores.length
    then ["Low data quality detected"] else [])

/-- First half of `PerformanceMonitor.record_request`: bump the counters
and push the samples into the bounded windows. -/
def pushSamples (m : Monitor) (success : Bool) (rt : ℚ)
    (quality_score : Option ℤ) : Monitor :=
  let m1 := { m with total_requests := m.total_requests + 1 }
  let m2 :=
    if success then { m1 with successful_requests := m1.successful_requests + 1 }
    else { m1 with failed_requests := m1.failed_requests + 1 }
  let m3 := { m2 with response_times := pushWindow m2.response_times rt }
  match quality_score with
  | some qs => { m3 with quality_scores := pushWindow m3.quality_scores qs }
  | none => m3

/-- Mirror of `PerformanceMonitor.record_request`: bump counters, push the
samples, recompute aggregates, then rebuild the alert list. -/
def record_request (m : Monitor) (_url : String) (success : Bool) (rt : ℚ)
    (quality_score : Option ℤ) : Monitor :=
  let m5 := updateMetrics (pushSamples m success rt quality_score)
  { m5 with alerts := computeAlerts m5 }

/-- Mirror of `RetryManager.retry_with_backoff`, instrumented with the list
of attempt indices at which the operation is invoked. `fuel` is the number
of remaining loop iterations and `attempt` the current index; the branch
`fuel = 1` is exactly Python's `attempt == max_retries - 1`, where the
failure is re-raised. -/
def retryTrace {E A : Type} (op : ℕ → Except E A) : ℕ → ℕ → List ℕ × Except E (Option A)
  | 0, _ => ([], Except.ok none)
  | fuel + 1, attempt =>
    match op attempt with
    | Except.ok a => ([attempt], Except.ok (some a))
    | Except.error e =>
      if fuel = 0 then ([attempt], Except.error e)
      else
        let rest := retryTrace op fuel (attempt + 1)
        (attempt :: rest.1, rest.2)

/-- Mirror of `RetryManager.retry_with_backoff`: `range(max_retries)` is
empty for a non-positive bound, in which case the function falls through
and returns `None`; otherwise it loops over attempts 0,1,.... The first
component records which attempts invoked the operation. -/
def retry_with_backoff {E A : Type} (max_retries : ℤ) (op : ℕ → Except E A) :
    List ℕ × Except E (Option A) :=
  retryTrace op max_retries.toNat 0

/-- Outcome of one transport call (`self.session.get`): either the call
raises (connection error, timeout), or it returns a response with a status
code, an elapsed time and a body. -/
inductive TransportResult where
  | raises : TransportResult
  | responds (status : ℕ) (rt : ℚ) (body : String)

/-- Observable side-effect calls that the scrape path makes on the proxy
pool and the performance monitor. -/
inductive Event where
  | proxyOutcome (addr : String) (success : Bool) (rt : ℚ)
  | metricsRecord (url : String) (success : Bool) (rt : ℚ) (q : Option ℤ)
deriving DecidableEq

/-- Whether a transport outcome makes the fetch attempt fail: a raising
call fails, a response fails exactly when `raise_for_status` raises
(4xx/5xx). -/
def attemptFails : TransportResult → Bool
  | TransportResult.raises => true
  | TransportResult.responds status _ _ => decide (400 ≤ status ∧ status < 600)

/-- Result of one `_fetch` attempt inside
`AdvancedWebScraper.fetch_page_requests`: the threaded pool state (`none`
when no proxy manager is configured), the proxy selected for the attempt,
the proxy-outcome calls made, and the attempt's result. -/
structure AttemptOut where
  pool : Option (List ProxyInfo)
  proxyUsed : Option String
  events : List Event
  result : Except Unit (String × ℚ)

/-- Mirror of `self._get_proxy()` inside `_fetch`: the proxy chosen for
the attempt, and the pool state after the selection stamp (`none` when no
proxy manager is configured). -/
def selectProxy (poolOpt : Option (List ProxyInfo)) (now : ℚ) :
    Option String × Option (List ProxyInfo) :=
  match poolOpt with
  | none => (none, none)
  | some pool => ((get_best_proxy pool now).1, some (get_best_proxy pool now).2)

/-- The proxy-performance update of `_fetch`: performed only when both a
proxy manager and a selected proxy are present
(`if self.proxy_manager and proxy`). -/
def proxyUpdate (sel : Option String × Option (List ProxyInfo))
    (success : Bool) (rt : ℚ) : Option (List ProxyInfo) × List Event :=
  match sel.1, sel.2 with
  | some paddr, some pool =>
    (some (update_proxy_performance pool paddr success rt),
     [Event.proxyOutcome paddr success rt])
  | _, _ => (sel.2, [])

/-- Mirror of one `_fetch` execution: select a proxy, run the transport;
on a returned response, update the proxy's performance with
`success = (status == 200)` when a proxy manager and a proxy are present,
then `raise_for_status` (raising on 4xx/5xx); on a raising transport call,
no proxy update happens at all. -/
def fetchAttempt (poolOpt : Option (List ProxyInfo)) (now : ℚ)
    (tr : TransportResult) : AttemptOut :=
  match tr with
  | TransportResult.raises =>
    { pool := (selectProxy poolOpt now).2, proxyUsed := (selectProxy poolOpt now).1,
      events := [], result := Except.error () }
  | TransportResult.responds status rt body =>
    let upd := proxyUpdate (selectProxy poolOpt now) (status == 200) rt
    { pool := upd.1, proxyUsed := (selectProxy poolOpt now).1, events := upd.2,
      result :=
        if 400 ≤ status ∧ status < 600 then Except.error () else Except.ok (body, rt) }

/-- Result of `fetch_page_requests`: threaded pool, the proxy selected on
each attempt, the proxy-outcome calls made, and the overall result
(`Except.ok none` models the `None` fall-through of an empty retry loop). -/
structure FetchOut where
  pool : Option (List ProxyInfo)
  proxiesUsed : List (Option String)
  events : List Event
  result : Except Unit (Option (String × ℚ))

/-- Mirror of `retry_with_backoff` applied to `_fetch`: run attempts in
sequence, stopping at the first success, and re-raise the failure of the
final attempt. `transport i` is the transport outcome of attempt `i` and
`clock i` the wall-clock time at attempt `i`. -/
def fetchRetry (transport : ℕ → TransportResult) (clock : ℕ → ℚ) :
    Option (List ProxyInfo) → ℕ → ℕ → FetchOut
  | pool, 0, _ => { pool := pool, proxiesUsed := [], events := [], result := Except.ok none }
  | pool, fuel + 1, attempt =>
    let att := fetchAttempt pool (clock attempt) (transport attempt)
    match att.result with
    | Except.ok br =>
      { pool := att.pool, proxiesUsed := [att.proxyUsed], events := att.events,
        result := Except.ok (some br) }
    | Except.error e =>
      if fuel = 0 then
        { pool := att.pool, proxiesUsed := [att.proxyUsed], events := att.events,
          result := Except.error e }
      else
        let rest := fetchRetry transport clock att.pool fuel (attempt + 1)
        { pool := rest.pool, proxiesUsed := att.proxyUsed :: rest.proxiesUsed,
          events := att.events ++ rest.events, result := rest.result }

/-- Result of `AdvancedWebScraper.scrape` for one URL: threaded pool,
per-attempt proxy selections, observable events, and the returned page
(`none` is the terminal FAILED/SKIPPED outcome). -/
structure ScrapeOut where
  pool : Option (List ProxyInfo)
  proxiesUsed : List (Option String)
  events : List Event
  page : Option PageData

/-- Mirror of `AdvancedWebScraper.scrape`: robots gate, fetch with retry,
parse (the external parser is the collaborator `parseFn`; `none` models a
falsy soup), validate, and record metrics. Any failure escaping the fetch
— including the unpacking of a `None` result — is caught and recorded as
`record_request(url, False, 0)`. -/
def scrape (url : String) (gateAllowed : Bool) (max_retries : ℕ)
    (transport : ℕ → TransportResult) (clock : ℕ → ℚ)
    (pool : Option (List ProxyInfo)) (parseFn : String → Option PageData) : ScrapeOut :=
  if !gateAllowed then
    { pool := pool, proxiesUsed := [], events := [], page := none }
  else
    let r := fetchRetry transport clock pool max_retries 0
    match r.result with
    | Except.error _ =>
      { pool := r.pool, proxiesUsed := r.proxiesUsed,
        events := r.events ++ [Event.metricsRecord url false 0 none], page := none }
    | Except.ok none =>
      { pool := r.pool, proxiesUsed := r.proxiesUsed,
        events := r.events ++ [Event.metricsRecord url false 0 none], page := none }
    | Except.ok (some br) =>
      match parseFn br.1 with
      | none =>
        { pool := r.pool, proxiesUsed := r.proxiesUsed,
          events := r.events ++ [Event.metricsRecord url false br.2 none], page := none }
      | some d =>
        let v := validate_scraped_data d
        { pool := r.pool, proxiesUsed := r.proxiesUsed,
          events := r.events ++ [Event.metricsRecord url true br.2 (some v.quality_score)],
          page := some d }

/-- Per-URL error record appended by the Flask batch driver:
`{'url': ..., 'error': 'Failed to scrape data', 'timestamp': ...}`. -/
structure ErrorRecord where
  url : String
  error : String
  timestamp : ℕ
deriving DecidableEq

/-- Accumulated output of the batch loop of `run_enhanced_scraping_job`. -/
structure JobOut (P : Type) where
  results : List P
  errors : List ErrorRecord
deriving DecidableEq

/-- Body of the per-URL loop of `run_enhanced_scraping_job`: a returned
page is appended to the results, a `None` scrape outcome is converted into
an error record, and the loop always continues to the next URL. `clock i`
is the timestamp taken at iteration `i`. -/
def jobLoop {P : Type} (scrapeFn : String → Option P) (clock : ℕ → ℕ) :
    List String → ℕ → JobOut P
  | [], _ => { results := [], errors := [] }
  | u :: rest, i =>
    let tail := jobLoop scrapeFn clock rest (i + 1)
    match scrapeFn u with
    | some d => { results := d :: tail.results, errors := tail.errors }
    | none =>
      { results := tail.results,
        errors := { url := u, error := "Failed to scrape data",
                    timestamp := clock i } :: tail.errors }

/-- Mirror of the batch loop of `run_enhanced_scraping_job` over a URL
list, starting at iteration 0. -/
def run_enhanced_scraping_job {P : Type} (scrapeFn : String → Option P)
    (clock : ℕ → ℕ) (urls : List String) : JobOut P :=
  jobLoop scrapeFn clock urls 0

/-- Invariant of the rate-limiter state: the current delay lies in the
band, the band is nonempty and its lower end is positive. -/
def RateInv (s : RateState) : Prop :=
  s.min_delay ≤ s.current_delay ∧ s.current_delay ≤ s.max_delay ∧
  0 < s.min_delay ∧ s.min_delay ≤ s.max_delay

/-- A 150-character paragraph of plain text. -/
def a150 : String := String.mk (List.replicate 150 'a')

/-- Concrete page of the validator example: title "Hello World", four
paragraphs totaling 600 characters, two links, no suspicious keyword. -/
def c8Page1 : PageData :=
  { title := "Hello World", paragraphs := [a150, a150, a150, a150],
    links := [{ url := "u1", text := "t1" }, { url := "u2", text := "t2" }] }

/-- Same page with one paragraph additionally containing "captcha" (total
paragraph length kept at 600 characters). -/
def c8Page2 : PageData :=
  { title := "Hello World",
    paragraphs := [a150, String.mk (List.replicate 143 'a') ++ "captcha", a150, a150],
    links := [{ url := "u1", text := "t1" }, { url := "u2", text := "t2" }] }

/-- Transport environment for the batch example: URL "b" raises on every
attempt, every other URL responds 200 immediately. -/
def c7Transport (u : String) : ℕ → TransportResult :=
  if u = "b" then fun _ => TransportResult.raises
  else fun _ => TransportResult.responds 200 1 "x"

/-- Page produced by the parser collaborator in the batch example. -/
def c7Page : PageData := { title := "x", paragraphs := [], links := [] }

/-- Per-URL scrape of the batch example: the real `scrape` path, with URL
"b" failing after exhausting its 3 retries. -/
def c7Scrape (u : String) : Option PageData :=
  (scrape u true 3 (c7Transport u) (fun _ => 0) none
    (fun s => if s = "" then none else some c7Page)).page

/-- One record call carrying quality score 0. -/
def c2Step (m : Monitor) : Monitor := record_request m "u" true 1 (some 0)

/-- Monitor state after five record calls each carrying quality score 0. -/
def c2CexMonitor : Monitor :=
  c2Step (c2Step (c2Step (c2Step (c2Step monitorInit))))

section LexLemmas

variable {α β γ : Type} [LinearOrder α] [LinearOrder β] [LinearOrder γ]

theorem lex3Lt_iff (a b : α × β × γ) :
    lex3Lt a b = true ↔
      (a.1 < b.1 ∨ (a.1 = b.1 ∧ (a.2.1 < b.2.1 ∨ (a.2.1 = b.2.1 ∧ a.2.2 < b.2.2)))) := by
  simp [lex3Lt]

theorem lex3Lt_irrefl (a : α × β × γ) : lex3Lt a a = false := by
  simp [lex3Lt]

theorem lex3Lt_trans {a b c : α × β × γ}
    (h1 : lex3Lt a b = true) (h2 : lex3Lt b c = true) : lex3Lt a c = true := by
  rw [lex3Lt_iff] at h1 h2 ⊢
  rcases h1 with h1 | ⟨e1, h1⟩
  · rcases h2 with h2 | ⟨e2, _⟩
    · exact Or.inl (lt_trans h1 h2)
    · exact Or.inl (lt_of_lt_of_eq h1 e2)
  · rcases h2 with h2 | ⟨e2, h2⟩
    · exact Or.inl (lt_of_eq_of_lt e1 h2)
    · refine Or.inr ⟨e1.trans e2, ?_⟩
      rcases h1 with h1 | ⟨f1, h1⟩
      · rcases h2 with h2 | ⟨f2, _⟩
        · exact Or.inl (lt_trans h1 h2)
        · exact Or.inl (lt_of_lt_of_eq h1 f2)
      · rcases h2 with h2 | ⟨f2, h2⟩
        · exact Or.inl (lt_of_eq_of_lt f1 h2)
        · exact Or.inr ⟨f1.trans f2, lt_trans h1 h2⟩

theorem lex3Lt_neg_trans {a b c : α × β × γ}
    (h1 : lex3Lt a b = false) (h2 : lex3Lt b c = false) : lex3Lt a c = false := by
  by_contra hac
  rw [Bool.not_eq_false, lex3Lt_iff] at hac
  rw [← Bool.not_eq_true, lex3Lt_iff] at h1 h2
  push_neg at h1 h2
  have hba : b.1 ≤ a.1 := h1.1
  have hcb : c.1 ≤ b.1 := h2.1
  rcases hac with hac | ⟨e, hac⟩
  · exact absurd hac (not_lt.mpr (le_trans hcb hba))
  · have eab : a.1 = b.1 := le_antisymm (e ▸ hcb) hba
    have ebc : b.1 = c.1 := eab ▸ e
    have h1' := h1.2 eab
    have h2' := h2.2 ebc
    have hba2 : b.2.1 ≤ a.2.1 := h1'.1
    have hcb2 : c.2.1 ≤ b.2.1 := h2'.1
    rcases hac with hac | ⟨e2, hac⟩
    · exact absurd hac (not_lt.mpr (le_trans hcb2 hba2))
    · have eab2 : a.2.1 = b.2.1 := le_antisymm (e2 ▸ hcb2) hba2
      have ebc2 : b.2.1 = c.2.1 := eab2 ▸ e2
      have hba3 : b.2.2 ≤ a.2.2 := h1'.2 eab2
      have hcb3 : c.2.2 ≤ b.2.2 := h2'.2 ebc2
      exact absurd hac (not_lt.mpr (le_trans hcb3 hba3))

end LexLemmas

theorem foldBest_cons (x y : ℕ × ProxyInfo) (ys : List (ℕ × ProxyInfo)) :
    foldBest x (y :: ys) =
      foldBest (if lex3Lt (proxyKey y.2) (proxyKey x.2) then y else x) ys := rfl

theorem foldBest_mem (xs : List (ℕ × ProxyInfo)) :
    ∀ x, foldBest x xs = x ∨ foldBest x xs ∈ xs := by
  induction xs with
  | nil => intro x; exact Or.inl rfl
  | cons y ys ih =>
    intro x
    rw [foldBest_cons]
    rcases ih (if lex3Lt (proxyKey y.2) (proxyKey x.2) then y else x) with h | h
    · rw [h]
      by_cases hc : lex3Lt (proxyKey y.2) (proxyKey x.2) = true
      · simp [hc]
      · simp [hc]
    · exact Or.inr (List.mem_cons_of_mem _ h)

theorem foldBest_min (xs : List (ℕ × ProxyInfo)) :
    ∀ x z, (z = x ∨ z ∈ xs) →
      lex3Lt (proxyKey z.2) (proxyKey (foldBest x xs).2) = false := by
  induction xs with
  | nil =>
    intro x z hz
    rcases hz with rfl | h
    · exact lex3Lt_irrefl _
    · cases h
  | cons y ys ih =>
    intro x z hz
    rw [foldBest_cons]
    by_cases hc : lex3Lt (proxyKey y.2) (proxyKey x.2) = true
    · rw [if_pos hc]
      rcases hz with rfl | hz
      · by_contra hzr
        rw [Bool.not_eq_false] at hzr
        have := lex3Lt_trans hc hzr
        have hy := ih y y (Or.inl rfl)
        rw [this] at hy
        cases hy
      · rcases List.mem_cons.mp hz with rfl | hz
        · exact ih z z (Or.inl rfl)
        · exact ih y z (Or.inr hz)
    · have hc' : lex3Lt (proxyKey y.2) (proxyKey x.2) = false := Bool.not_eq_true _ ▸ eq_false_of_ne_true hc
      rw [if_neg hc]
      rcases hz with rfl | hz
      · exact ih z z (Or.inl rfl)
      · rcases List.mem_cons.mp hz with rfl | hz
        · exact lex3Lt_neg_trans hc' (ih x x (Or.inl rfl))
        · exact ih x z (Or.inr hz)

theorem enumFrom_mem_get {α : Type} (l : List α) :
    ∀ n i p, (i, p) ∈ enumFrom n l →
      ∃ j, ∃ h : j < l.length, i = n + j ∧ l.get ⟨j, h⟩ = p := by
  induction l with
  | nil => intro n i p h; cases h
  | cons a as ih =>
    intro n i p h
    rw [enumFrom] at h
    rcases List.mem_cons.mp h with heq | h2
    · obtain ⟨hi, hp⟩ := Prod.mk.injEq .. ▸ heq
      exact ⟨0, by simp, by omega, by simp [hp.symm]⟩
    · obtain ⟨j, hj, hij, hget⟩ := ih (n + 1) i p h2
      exact ⟨j + 1, by simpa using Nat.succ_lt_succ hj, by omega, by simpa using hget⟩

theorem get_mem_enumFrom {α : Type} (l : List α) :
    ∀ n j (h : j < l.length), (n + j, l.get ⟨j, h⟩) ∈ enumFrom n l := by
  induction l with
  | nil => intro n j h; exact absurd h (Nat.not_lt_zero j)
  | cons a as ih =>
    intro n j h
    cases j with
    | zero => rw [enumFrom]; simp
    | succ k =>
      rw [enumFrom]
      have hk : k < as.length := by simpa using Nat.lt_of_succ_lt_succ h
      have h2 := ih (n + 1) k hk
      apply List.mem_cons_of_mem
      have harith : n + (k + 1) = n + 1 + k := by omega
      rw [harith]
      simpa using h2

theorem snd_mem_of_mem_enumFrom {α : Type} {l : List α} {x : ℕ × α}
    (h : x ∈ enumFrom 0 l) : x.2 ∈ l := by
  obtain ⟨i, p⟩ := x
  obtain ⟨j, hj, _, hget⟩ := enumFrom_mem_get l 0 i p h
  exact hget ▸ List.get_mem l j hj

theorem exists_enum_of_mem {α : Type} {l : List α} {p : α} (hp : p ∈ l) :
    ∃ i, (i, p) ∈ enumFrom 0 l := by
  obtain ⟨n, hget⟩ := List.mem_iff_get.mp hp
  refine ⟨n.1, ?_⟩
  have hmem := get_mem_enumFrom l 0 n.1 n.2
  rw [Fin.eta, hget] at hmem
  simpa using hmem

theorem mem_healthyCands {pool : List ProxyInfo} {x : ℕ × ProxyInfo} :
    x ∈ healthyCands pool ↔ x ∈ enumFrom 0 pool ∧ 50 < x.2.health := by
  simp [healthyCands, List.mem_filter]

theorem mem_availableCands {pool : List ProxyInfo} {x : ℕ × ProxyInfo} :
    x ∈ availableCands pool ↔ x ∈ enumFrom 0 pool ∧ 0 < x.2.health := by
  simp [availableCands, List.mem_filter]

theorem mem_candsOf_sub {pool : List ProxyInfo} {x : ℕ × ProxyInfo}
    (h : x ∈ candsOf pool) : x ∈ enumFrom 0 pool ∧ 0 < x.2.health := by
  unfold candsOf at h
  by_cases he : (healthyCands pool).isEmpty
  · rw [if_pos he] at h
    exact mem_availableCands.mp h
  · rw [if_neg he] at h
    obtain ⟨h1, h2⟩ := mem_healthyCands.mp h
    exact ⟨h1, by omega⟩

theorem candsOf_eq_nil_iff (pool : List ProxyInfo) :
    candsOf pool = [] ↔ ∀ p ∈ pool, p.health ≤ 0 := by
  unfold candsOf
  by_cases he : (healthyCands pool).isEmpty
  · rw [if_pos he]
    constructor
    · intro hav p hp
      by_contra hpos
      rw [not_le] at hpos
      obtain ⟨i, hi⟩ := exists_enum_of_mem hp
      have : (i, p) ∈ availableCands pool := mem_availableCands.mpr ⟨hi, hpos⟩
      rw [hav] at this
      cases this
    · intro hall
      apply List.filter_eq_nil_iff.mpr
      intro x hx
      have hx2 : x.2 ∈ pool := snd_mem_of_mem_enumFrom hx
      simpa using not_lt.mpr (hall x.2 hx2)
  · rw [if_neg he]
    have hne : healthyCands pool ≠ [] := by
      intro h0
      rw [h0] at he
      exact he rfl
    obtain ⟨x, hx⟩ := List.exists_mem_of_ne_nil _ hne
    obtain ⟨h1, h2⟩ := mem_healthyCands.mp hx
    have hx2 : x.2 ∈ pool := snd_mem_of_mem_enumFrom h1
    constructor
    · intro h0
      exact absurd h0 hne
    · intro hall
      exact absurd (hall x.2 hx2) (by omega)

theorem get_best_proxy_of_nil {pool : List ProxyInfo} (now : ℚ)
    (h : candsOf pool = []) : get_best_proxy pool now = (none, pool) := by
  simp [get_best_proxy, h]

theorem get_best_proxy_of_cons {pool : List ProxyInfo} (now : ℚ)
    {c : ℕ × ProxyInfo} {cs : List (ℕ × ProxyInfo)} (h : candsOf pool = c :: cs) :
    get_best_proxy pool now =
      (some (foldBest c cs).2.url,
       pool.set (foldBest c cs).1 { (foldBest c cs).2 with last_used := now }) := by
  simp [get_best_proxy, h]

/-- C4: for every pool whose health scores are non-negative (as in every
reachable pool state), `get_best_proxy` returns `none` exactly when the
pool is empty or every record has health 0; when it returns an address,
that address is the url of a candidate (health>50, widened to health>0
when no record has health>50) minimizing the lexicographic key
`(response_time, -health, last_used)`, and it is the url of a pool record
with strictly positive health — never a dead record's. -/
theorem get_best_proxy_selection (pool : List ProxyInfo) (now : ℚ)
    (hpos : ∀ p ∈ pool, 0 ≤ p.health) :
    ((get_best_proxy pool now).1 = none ↔ (pool = [] ∨ ∀ p ∈ pool, p.health = 0)) ∧
    (∀ addr, (get_best_proxy pool now).1 = some addr →
      ((∃ c, c ∈ candsOf pool ∧ addr = c.2.url ∧
          ∀ d, d ∈ candsOf pool →
            lex3Lt (proxyKey d.2) (proxyKey c.2) = false) ∧
       (∃ p, p ∈ pool ∧ p.url = addr ∧ 0 < p.health))) := by
  cases hc : candsOf pool with
  | nil =>
    rw [get_best_proxy_of_nil now hc]
    constructor
    · simp only [true_iff]
      rcases pool with _ | ⟨q, qs⟩
      · exact Or.inl rfl
      · refine Or.inr ?_
        intro p hp
        have h1 := (candsOf_eq_nil_iff _).mp hc p hp
        have h2 := hpos p hp
        omega
    · intro addr h
      cases h
  | cons c cs =>
    rw [get_best_proxy_of_cons now hc]
    constructor
    · refine iff_of_false (by simp) ?_
      rintro (rfl | hall)
      · simp [candsOf, healthyCands, availableCands, enumFrom] at hc
      · have h0 : candsOf pool = [] :=
          (candsOf_eq_nil_iff pool).mpr (fun p hp => le_of_eq (hall p hp))
        rw [hc] at h0
        cases h0
    · intro addr h
      have haddr : addr = (foldBest c cs).2.url := by
        simpa using h.symm
      have hmem : foldBest c cs ∈ c :: cs := by
        rcases foldBest_mem cs c with h1 | h1
        · rw [h1]
          exact List.mem_cons_self _ _
        · exact List.mem_cons_of_mem _ h1
      refine ⟨⟨foldBest c cs, hmem, haddr, ?_⟩, ?_⟩
      · intro d hd
        rcases List.mem_cons.mp hd with rfl | hd
        · exact foldBest_min cs d d (Or.inl rfl)
        · exact foldBest_min cs c d (Or.inr hd)
      · have hmem' : foldBest c cs ∈ candsOf pool := by
          rw [hc]
          exact hmem
        obtain ⟨henum, hhealth⟩ := mem_candsOf_sub hmem'
        exact ⟨(foldBest c cs).2, snd_mem_of_mem_enumFrom henum, haddr.symm, hhealth⟩

/-- Witness for C4 at a concrete two-record pool: the healthy record "a"
is selected, and the instantiated conclusion holds. -/
theorem get_best_proxy_selection_witness :
    (∀ p ∈ [ProxyInfo.mk "a" 100 1 0 0 0, ProxyInfo.mk "b" 0 0 0 0 0], 0 ≤ p.health) ∧
    (((get_best_proxy [ProxyInfo.mk "a" 100 1 0 0 0, ProxyInfo.mk "b" 0 0 0 0 0] 7).1 = none ↔
        ([ProxyInfo.mk "a" 100 1 0 0 0, ProxyInfo.mk "b" 0 0 0 0 0] = ([] : List ProxyInfo) ∨
         ∀ p ∈ [ProxyInfo.mk "a" 100 1 0 0 0, ProxyInfo.mk "b" 0 0 0 0 0], p.health = 0)) ∧
      (∀ addr,
        (get_best_proxy [ProxyInfo.mk "a" 100 1 0 0 0, ProxyInfo.mk "b" 0 0 0 0 0] 7).1 = some addr →
        ((∃ c, c ∈ candsOf [ProxyInfo.mk "a" 100 1 0 0 0, ProxyInfo.mk "b" 0 0 0 0 0] ∧
            addr = c.2.url ∧
            ∀ d, d ∈ candsOf [ProxyInfo.mk "a" 100 1 0 0 0, ProxyInfo.mk "b" 0 0 0 0 0] →
              lex3Lt (proxyKey d.2) (proxyKey c.2) = false) ∧
         (∃ p, p ∈ [ProxyInfo.mk "a" 100 1 0 0 0, ProxyInfo.mk "b" 0 0 0 0 0] ∧
            p.url = addr ∧ 0 < p.health)))) :=
  ⟨by decide, get_best_proxy_selection _ 7 (by decide)⟩

/-- C9: whenever `get_best_proxy` returns an address it updates exactly the
selected record's `last_used` field to the current time and nothing else;
whenever it returns `none` the pool is left entirely unchanged. -/
theorem get_best_proxy_frame (pool : List ProxyInfo) (now : ℚ) :
    ((get_best_proxy pool now).1 = none → (get_best_proxy pool now).2 = pool) ∧
    (∀ addr, (get_best_proxy pool now).1 = some addr →
      ∃ i, ∃ h : i < pool.length,
        addr = (pool.get ⟨i, h⟩).url ∧
        (get_best_proxy pool now).2 =
          pool.set i { pool.get ⟨i, h⟩ with last_used := now }) := by
  cases hc : candsOf pool with
  | nil =>
    rw [get_best_proxy_of_nil now hc]
    exact ⟨fun _ => rfl, fun addr h => by cases h⟩
  | cons c cs =>
    rw [get_best_proxy_of_cons now hc]
    constructor
    · intro h
      cases h
    · intro addr h
      have haddr : addr = (foldBest c cs).2.url := by
        simpa using h.symm
      have hmem : foldBest c cs ∈ candsOf pool := by
        rw [hc]
        rcases foldBest_mem cs c with h1 | h1
        · rw [h1]
          exact List.mem_cons_self _ _
        · exact List.mem_cons_of_mem _ h1
      obtain ⟨henum, _⟩ := mem_candsOf_sub hmem
      obtain ⟨j, hj, hij, hget⟩ := enumFrom_mem_get pool 0 (foldBest c cs).1 (foldBest c cs).2 henum
      refine ⟨j, hj, ?_, ?_⟩
      · rw [hget, ← haddr]
      · rw [hget]
        have hidx : (foldBest c cs).1 = j := by omega
        rw [hidx]

/-- Witness for C9 at a concrete pool: record "a" is selected and gets its
`last_used` stamped. -/
theorem get_best_proxy_frame_witness :
    ∃ i, ∃ h : i < ([ProxyInfo.mk "a" 100 1 0 0 0, ProxyInfo.mk "b" 0 0 0 0 0] : List ProxyInfo).length,
      "a" = (([ProxyInfo.mk "a" 100 1 0 0 0, ProxyInfo.mk "b" 0 0 0 0 0] : List ProxyInfo).get ⟨i, h⟩).url ∧
      (get_best_proxy [ProxyInfo.mk "a" 100 1 0 0 0, ProxyInfo.mk "b" 0 0 0 0 0] 7).2 =
        ([ProxyInfo.mk "a" 100 1 0 0 0, ProxyInfo.mk "b" 0 0 0 0 0] : List ProxyInfo).set i
          { ([ProxyInfo.mk "a" 100 1 0 0 0, ProxyInfo.mk "b" 0 0 0 0 0] : List ProxyInfo).get ⟨i, h⟩ with
            last_used := 7 } :=
  (get_best_proxy_frame [ProxyInfo.mk "a" 100 1 0 0 0, ProxyInfo.mk "b" 0 0 0 0 0] 7).2 "a" (by decide)

/-- C5: one `update_proxy_performance` call addressed at a record (the
first in the pool bearing its url) with success=true sets its health to
`min 100 (health+5)`, stores the response time and bumps the success
count; with success=false it sets health to `max 0 (health-20)` and bumps
the failure count; all other records are untouched. -/
theorem update_proxy_performance_outcome (l1 : List ProxyInfo) (p : ProxyInfo)
    (l2 : List ProxyInfo) (rt : ℚ) (hfirst : ∀ q ∈ l1, q.url ≠ p.url) :
    update_proxy_performance (l1 ++ p :: l2) p.url true rt =
      l1 ++ { p with health := min 100 (p.health + 5),
                     success_count := p.success_count + 1,
                     response_time := rt } :: l2 ∧
    update_proxy_performance (l1 ++ p :: l2) p.url false rt =
      l1 ++ { p with health := max 0 (p.health - 20),
                     failure_count := p.failure_count + 1 } :: l2 := by
  induction l1 with
  | nil =>
    constructor
    · simp [update_proxy_performance]
    · simp [update_proxy_performance]
  | cons q qs ih =>
    have hq : q.url ≠ p.url := hfirst q (List.mem_cons_self _ _)
    have hrest : ∀ r ∈ qs, r.url ≠ p.url := fun r hr => hfirst r (List.mem_cons_of_mem _ hr)
    obtain ⟨ih1, ih2⟩ := ih hrest
    constructor
    · simpa [update_proxy_performance, hq] using ih1
    · simpa [update_proxy_performance, hq] using ih2

/-- Witness for C5 at a concrete three-record pool with the target record
in the middle. -/
theorem update_proxy_performance_outcome_witness :
    update_proxy_performance
        ([ProxyInfo.mk "x" 100 1 0 0 0] ++ ProxyInfo.mk "y" 50 2 3 4 5 :: [ProxyInfo.mk "z" 7 0 0 0 0])
        (ProxyInfo.mk "y" 50 2 3 4 5).url true (9/2) =
      [ProxyInfo.mk "x" 100 1 0 0 0] ++
        { ProxyInfo.mk "y" 50 2 3 4 5 with
          health := min 100 ((ProxyInfo.mk "y" 50 2 3 4 5).health + 5),
          success_count := (ProxyInfo.mk "y" 50 2 3 4 5).success_count + 1,
          response_time := (9/2 : ℚ) } :: [ProxyInfo.mk "z" 7 0 0 0 0] ∧
    update_proxy_performance
        ([ProxyInfo.mk "x" 100 1 0 0 0] ++ ProxyInfo.mk "y" 50 2 3 4 5 :: [ProxyInfo.mk "z" 7 0 0 0 0])
        (ProxyInfo.mk "y" 50 2 3 4 5).url false (9/2) =
      [ProxyInfo.mk "x" 100 1 0 0 0] ++
        { ProxyInfo.mk "y" 50 2 3 4 5 with
          health := max 0 ((ProxyInfo.mk "y" 50 2 3 4 5).health - 20),
          failure_count := (ProxyInfo.mk "y" 50 2 3 4 5).failure_count + 1 } :: [ProxyInfo.mk "z" 7 0 0 0 0] :=
  update_proxy_performance_outcome [ProxyInfo.mk "x" 100 1 0 0 0]
    (ProxyInfo.mk "y" 50 2 3 4 5) [ProxyInfo.mk "z" 7 0 0 0 0] (9/2) (by decide)

theorem adjust_delay_inv {s : RateState} (b : Bool) (h : RateInv s) :
    RateInv (adjust_delay s b) := by
  obtain ⟨h1, h2, h3, h4⟩ := h
  unfold adjust_delay RateInv
  cases b with
  | false =>
    simp only [Bool.false_eq_true, if_false]
    refine ⟨?_, ?_, h3, h4⟩
    · have : s.current_delay ≤ s.current_delay * (3/2) := by linarith
      exact le_min h4 (le_trans h1 this)
    · exact min_le_left _ _
  | true =>
    simp only [if_true]
    by_cases hc : 5 < s.success_count + 1
    · rw [if_pos hc]
      refine ⟨le_max_left _ _, ?_, h3, h4⟩
      · apply max_le h4
        have : s.current_delay * (9/10) ≤ s.current_delay := by linarith
        exact le_trans this h2
    · rw [if_neg hc]
      exact ⟨h1, h2, h3, h4⟩

theorem foldl_adjust_delay_inv (calls : List Bool) :
    ∀ s : RateState, RateInv s → RateInv (List.foldl adjust_delay s calls) := by
  induction calls with
  | nil => intro s h; exact h
  | cons b bs ih =>
    intro s h
    rw [List.foldl_cons]
    exact ih _ (adjust_delay_inv b h)

/-- C3 counterexample: constructing the rate limiter with base delay 0.1
(the constructor accepts any base delay) yields, after the empty call
sequence, a stored current delay strictly below the minimum delay, so the
band invariant fails immediately after construction. -/
theorem rate_band_cex :
    (rateRun (1/10) []).current_delay < (rateRun (1/10) []).min_delay := by
  norm_num [rateRun, rateInit]

/-- C3 (amended): provided the constructor's base delay lies within the
fixed band [0.5, 10] — as the default base delay 1.0 used by every
construction in the repository does — every state reached by any finite
sequence of success/failure calls, including the freshly constructed one,
keeps the stored pre-jitter current delay within
[min_delay, max_delay]. -/
theorem rate_band_invariant (base : ℚ) (h1 : 1/2 ≤ base) (h2 : base ≤ 10)
    (calls : List Bool) :
    (rateRun base calls).min_delay ≤ (rateRun base calls).current_delay ∧
    (rateRun base calls).current_delay ≤ (rateRun base calls).max_delay := by
  have hinit : RateInv (rateInit base) := by
    refine ⟨?_, ?_, ?_, ?_⟩
    · simpa [rateInit] using h1
    · simpa [rateInit] using h2
    · norm_num [rateInit]
    · norm_num [rateInit]
  have h := foldl_adjust_delay_inv calls (rateInit base) hinit
  exact ⟨h.1, h.2.1⟩

/-- Witness for C3 (amended) at the default base delay 1.0 and the call
sequence success, failure, success. -/
theorem rate_band_invariant_witness :
    (1/2 ≤ (1 : ℚ) ∧ (1 : ℚ) ≤ 10) ∧
    ((rateRun 1 [true, false, true]).min_delay ≤ (rateRun 1 [true, false, true]).current_delay ∧
     (rateRun 1 [true, false, true]).current_delay ≤ (rateRun 1 [true, false, true]).max_delay) :=
  ⟨⟨by norm_num, by norm_num⟩, rate_band_invariant 1 (by norm_num) (by norm_num) [true, false, true]⟩

/-- C6: with `max_retries = 3` and an operation failing on every
invocation, `retry_with_backoff` invokes the operation exactly three
times — at attempt indices 0, 1 and 2 — and then propagates the failure
value of the final attempt unchanged to the caller. -/
theorem retry_exhausts_and_propagates {E A : Type} (f : ℕ → E)
    (op : ℕ → Except E A) (hop : ∀ i, op i = Except.error (f i)) :
    retry_with_backoff 3 op = ([0, 1, 2], Except.error (f 2)) := by
  have h3 : (3 : ℤ).toNat = 3 := rfl
  unfold retry_with_backoff
  rw [h3]
  rw [retryTrace, hop 0]
  norm_num
  rw [retryTrace, hop 1]
  norm_num
  rw [retryTrace, hop 2]
  norm_num

/-- Witness for C6 with a concrete permanently failing operation. -/
theorem retry_exhausts_and_propagates_witness :
    retry_with_backoff 3 (fun i => (Except.error i : Except ℕ ℕ)) =
      ([0, 1, 2], Except.error 2) :=
  retry_exhausts_and_propagates (fun i => i) (fun i => Except.error i) (fun _ => rfl)

/-- C10: with a non-positive `max_retries` the retry loop body never runs
(`range` is empty), so the operation is never invoked, no failure is
raised, and the function returns the no-result value `None`. -/
theorem retry_nonpositive_noop {E A : Type} (n : ℤ) (hn : n ≤ 0)
    (op : ℕ → Except E A) : retry_with_backoff n op = ([], Except.ok none) := by
  unfold retry_with_backoff
  rw [Int.toNat_of_nonpos hn]
  rfl

/-- Witness for C10 at `max_retries = -1`. -/
theorem retry_nonpositive_noop_witness :
    retry_with_backoff (-1) (fun i => (Except.error i : Except ℕ ℕ)) =
      ([], Except.ok none) :=
  retry_nonpositive_noop (-1) (by decide) (fun i => Except.error i)

/-- C8: on a page with title "Hello World", four paragraphs totaling 600
characters, two links and no suspicious keyword, the validator scores 60
and marks the page valid; the same page with "captcha" inside one
paragraph scores 10, is invalid, and carries the bot-detection issue. -/
theorem validator_examples :
    c8Page1.paragraphs.length = 4 ∧
    (c8Page1.paragraphs.map String.length).sum = 600 ∧
    c8Page1.links.length = 2 ∧
    (validate_scraped_data c8Page1).quality_score = 60 ∧
    (validate_scraped_data c8Page1).is_valid = true ∧
    (c8Page2.paragraphs.map String.length).sum = 600 ∧
    (validate_scraped_data c8Page2).quality_score = 10 ∧
    (validate_scraped_data c8Page2).is_valid = false ∧
    "Possible bot detection page" ∈ (validate_scraped_data c8Page2).issues := by
  set_option maxRecDepth 100000 in decide

/-- C7: on a batch of three URLs where the second scrape yields the
terminal failure outcome and the first and third succeed, the job result
holds exactly the two successful pages in order and exactly one error
record — url, the fixed failure reason, and the iteration timestamp — for
the second URL; the third URL is still processed (its page is in the
results). One URL's failure never aborts the batch. -/
theorem batch_isolates_failures {P : Type} (u1 u2 u3 : String) (p1 p3 : P)
    (f : String → Option P) (clock : ℕ → ℕ)
    (h1 : f u1 = some p1) (h2 : f u2 = none) (h3 : f u3 = some p3) :
    run_enhanced_scraping_job f clock [u1, u2, u3] =
      { results := [p1, p3],
        errors := [{ url := u2, error := "Failed to scrape data",
                     timestamp := clock 1 }] } ∧
    p3 ∈ (run_enhanced_scraping_job f clock [u1, u2, u3]).results := by
  have he : run_enhanced_scraping_job f clock [u1, u2, u3] =
      { results := [p1, p3],
        errors := [{ url := u2, error := "Failed to scrape data",
                     timestamp := clock 1 }] } := by
    simp [run_enhanced_scraping_job, jobLoop, h1, h2, h3]
  refine ⟨he, ?_⟩
  rw [he]
  simp

/-- Witness for C7: the per-URL scrape is the real `scrape` path; URL "b"
raises on all three retry attempts and fails, URLs "a" and "c" respond
with status 200 and succeed. -/
theorem batch_isolates_failures_witness :
    run_enhanced_scraping_job c7Scrape (fun i => i) ["a", "b", "c"] =
      { results := [c7Page, c7Page],
        errors := [{ url := "b", error := "Failed to scrape data",
                     timestamp := 1 }] } ∧
    c7Page ∈ (run_enhanced_scraping_job c7Scrape (fun i => i) ["a", "b", "c"]).results :=
  batch_isolates_failures "a" "b" "c" c7Page c7Page c7Scrape (fun i => i)
    (by decide) (by decide) (by decide)

theorem updateMetrics_quality_scores (m : Monitor) :
    (updateMetrics m).quality_scores = m.quality_scores := by
  unfold updateMetrics
  dsimp only
  split_ifs <;> rfl

theorem updateMetrics_avg (m : Monitor) (h : m.quality_scores ≠ []) :
    (updateMetrics m).average_quality_score =
      ((m.quality_scores.sum : ℤ) : ℚ) / (m.quality_scores.length : ℚ) := by
  unfold updateMetrics
  dsimp only
  have hni : ¬ m.quality_scores.isEmpty = true := by
    simpa [List.isEmpty_iff] using h
  split_ifs <;> simp_all

theorem record_request_alerts (m : Monitor) (u : String) (s : Bool) (rt : ℚ)
    (q : Option ℤ) :
    (record_request m u s rt q).alerts = computeAlerts (record_request m u s rt q) := by
  unfold record_request
  dsimp only
  unfold computeAlerts
  rfl

theorem record_request_quality_scores (m : Monitor) (u : String) (s : Bool) (rt : ℚ)
    (q : Option ℤ) :
    (record_request m u s rt q).quality_scores =
      (pushSamples m s rt q).quality_scores := by
  unfold record_request
  dsimp only
  exact updateMetrics_quality_scores _

theorem record_request_avg (m : Monitor) (u : String) (s : Bool) (rt : ℚ)
    (q : Option ℤ) (h : (record_request m u s rt q).quality_scores ≠ []) :
    (record_request m u s rt q).average_quality_score =
      (((record_request m u s rt q).quality_scores.sum : ℤ) : ℚ) /
        ((record_request m u s rt q).quality_scores.length : ℚ) := by
  rw [record_request_quality_scores] at h ⊢
  unfold record_request
  dsimp only
  exact updateMetrics_avg _ h

theorem mem_alerts_quality (m : Monitor) :
    "Low data quality detected" ∈ computeAlerts m ↔
      (m.average_quality_score < 50 ∧ 5 < m.quality_scores.length) := by
  unfold computeAlerts
  by_cases h1 : m.success_rate < 4/5 ∧ 10 < m.total_requests <;>
    by_cases h2 : 10 < m.average_response_time <;>
      by_cases h3 : m.average_quality_score < 50 ∧ 5 < m.quality_scores.length <;>
        simp [h1, h2, h3]

/-- C2 (amended): after any record call, the "Low data quality detected"
alert is present if and only if the mean of the live quality window is
below 50 AND the window holds strictly more than 5 quality samples — the
code tests `len(quality_scores) > 5`, so exactly 5 samples are not
enough. -/
theorem low_quality_alert_iff (m : Monitor) (u : String) (s : Bool) (rt : ℚ)
    (q : Option ℤ) :
    ("Low data quality detected" ∈ (record_request m u s rt q).alerts ↔
      ((((record_request m u s rt q).quality_scores.sum : ℤ) : ℚ) /
          ((record_request m u s rt q).quality_scores.length : ℚ) < 50 ∧
        5 < (record_request m u s rt q).quality_scores.length)) := by
  rw [record_request_alerts, mem_alerts_quality]
  constructor
  · rintro ⟨havg, hlen⟩
    have hne : (record_request m u s rt q).quality_scores ≠ [] := by
      intro h0
      rw [h0] at hlen
      simp at hlen
    rw [← record_request_avg m u s rt q hne]
    exact ⟨havg, hlen⟩
  · rintro ⟨havg, hlen⟩
    have hne : (record_request m u s rt q).quality_scores ≠ [] := by
      intro h0
      rw [h0] at hlen
      simp at hlen
    rw [record_request_avg m u s rt q hne]
    exact ⟨havg, hlen⟩

/-- C2 counterexample: after five record calls each carrying quality score
0 the live-window mean is 0 < 50 and exactly 5 quality samples have been
collected, yet the "Low data quality detected" alert is absent — the code
requires strictly more than 5 samples, refuting the claim's "at least
5". -/
theorem low_quality_alert_cex :
    c2CexMonitor.quality_scores.length = 5 ∧
    c2CexMonitor.average_quality_score < 50 ∧
    "Low data quality detected" ∉ c2CexMonitor.alerts := by
  have hrr : c2CexMonitor =
      record_request (c2Step (c2Step (c2Step (c2Step monitorInit)))) "u" true 1 (some 0) := rfl
  have hq : c2CexMonitor.quality_scores = [0, 0, 0, 0, 0] := by decide
  have hlen : c2CexMonitor.quality_scores.length = 5 := by rw [hq]; rfl
  have hne : (record_request (c2Step (c2Step (c2Step (c2Step monitorInit))))
      "u" true 1 (some 0)).quality_scores ≠ [] := by
    rw [← hrr, hq]
    simp
  have havg := record_request_avg (c2Step (c2Step (c2Step (c2Step monitorInit))))
    "u" true 1 (some 0) hne
  rw [← hrr, hq] at havg
  norm_num at havg
  have halerts : c2CexMonitor.alerts = computeAlerts c2CexMonitor := by
    rw [hrr]
    exact record_request_alerts _ "u" true 1 (some 0)
  refine ⟨hlen, ?_, ?_⟩
  · rw [havg]
    norm_num
  · rw [halerts, mem_alerts_quality, hlen]
    simp

theorem fetchAttempt_fail (po : Option (List ProxyInfo)) (now : ℚ)
    (tr : TransportResult) (h : attemptFails tr = true) :
    (fetchAttempt po now tr).result = Except.error () := by
  cases tr with
  | raises => rfl
  | responds status rt body =>
    simp only [attemptFails, decide_eq_true_eq] at h
    simp [fetchAttempt, h]

theorem selectProxy_some (po : Option (List ProxyInfo)) (now : ℚ) (p : String)
    (h : (selectProxy po now).1 = some p) :
    ∃ pl, (selectProxy po now).2 = some pl := by
  cases po with
  | none => simp [selectProxy] at h
  | some pool => exact ⟨(get_best_proxy pool now).2, rfl⟩

theorem fetchAttempt_proxy_event (po : Option (List ProxyInfo)) (now : ℚ)
    (status : ℕ) (rt : ℚ) (body : String) (p : String) (hs : 400 ≤ status)
    (hp : (fetchAttempt po now (TransportResult.responds status rt body)).proxyUsed = some p) :
    Event.proxyOutcome p false rt ∈
      (fetchAttempt po now (TransportResult.responds status rt body)).events := by
  have hp1 : (selectProxy po now).1 = some p := hp
  obtain ⟨pl, hp2⟩ := selectProxy_some po now p hp1
  have hs200 : (status == 200) = false := by
    simp only [beq_eq_false_iff_ne, ne_eq]
    omega
  show Event.proxyOutcome p false rt ∈
    (proxyUpdate (selectProxy po now) (status == 200) rt).2
  simp [proxyUpdate, hp1, hp2, hs200]

theorem fetchRetry_fail_run (transport : ℕ → TransportResult) (clock : ℕ → ℚ)
    (hfail : ∀ i, attemptFails (transport i) = true) :
    ∀ fuel a po,
      (fetchRetry transport clock po (fuel + 1) a).result = Except.error () ∧
      (fetchRetry transport clock po (fuel + 1) a).proxiesUsed.length = fuel + 1 ∧
      (∀ status rt body p,
        transport (a + fuel) = TransportResult.responds status rt body →
        (fetchRetry transport clock po (fuel + 1) a).proxiesUsed.getLast? = some (some p) →
        Event.proxyOutcome p false rt ∈
          (fetchRetry transport clock po (fuel + 1) a).events) := by
  intro fuel
  induction fuel with
  | zero =>
    intro a po
    have hres := fetchAttempt_fail po (clock a) (transport a) (hfail a)
    simp only [fetchRetry]
    rw [hres]
    refine ⟨rfl, rfl, ?_⟩
    intro status rt body p htr hlast
    rw [Nat.add_zero] at htr
    have hp : (fetchAttempt po (clock a) (transport a)).proxyUsed = some p := by
      simpa using hlast
    rw [htr] at hp ⊢
    have h4 : 400 ≤ status := by
      have := hfail a
      rw [htr] at this
      simp only [attemptFails, decide_eq_true_eq] at this
      exact this.1
    exact fetchAttempt_proxy_event po (clock a) status rt body p h4 hp
  | succ f ih =>
    intro a po
    have hres := fetchAttempt_fail po (clock a) (transport a) (hfail a)
    obtain ⟨ih1, ih2, ih3⟩ := ih (a + 1) (fetchAttempt po (clock a) (transport a)).pool
    have hstep : fetchRetry transport clock po (f + 1 + 1) a =
        { pool := (fetchRetry transport clock (fetchAttempt po (clock a) (transport a)).pool
            (f + 1) (a + 1)).pool,
          proxiesUsed := (fetchAttempt po (clock a) (transport a)).proxyUsed ::
            (fetchRetry transport clock (fetchAttempt po (clock a) (transport a)).pool
              (f + 1) (a + 1)).proxiesUsed,
          events := (fetchAttempt po (clock a) (transport a)).events ++
            (fetchRetry transport clock (fetchAttempt po (clock a) (transport a)).pool
              (f + 1) (a + 1)).events,
          result := (fetchRetry transport clock (fetchAttempt po (clock a) (transport a)).pool
            (f + 1) (a + 1)).result } := by
      rw [fetchRetry, hres]
      simp
    rw [hstep]
    refine ⟨ih1, by simp [ih2], ?_⟩
    intro status rt body p htr hlast
    have hne : (fetchRetry transport clock (fetchAttempt po (clock a) (transport a)).pool
        (f + 1) (a + 1)).proxiesUsed ≠ [] := by
      intro h0
      rw [h0] at ih2
      simp at ih2
    have hlast' : (fetchRetry transport clock (fetchAttempt po (clock a) (transport a)).pool
        (f + 1) (a + 1)).proxiesUsed.getLast? = some (some p) := by
      rcases hrw : (fetchRetry transport clock (fetchAttempt po (clock a) (transport a)).pool
          (f + 1) (a + 1)).proxiesUsed with _ | ⟨y, ys⟩
      · exact absurd hrw hne
      · rw [hrw] at hlast
        simpa [List.getLast?_cons_cons] using hlast
    have htr' : transport (a + 1 + f) = TransportResult.responds status rt body := by
      have harith : a + 1 + f = a + (f + 1) := by omega
      rw [harith]
      exact htr
    exact List.mem_append.mpr (Or.inr (ih3 status rt body p htr' hlast'))

/-- C1 (amended): when every attempt of a fetch fails (the transport
raises or returns a 4xx/5xx response on each attempt), `scrape` yields the
terminal FAILED outcome (no page) and its last observable call is the
failed metrics event `record(url, false, 0)`. A failed proxy outcome for
the last proxy used is recorded only when the final attempt's transport
call actually returned a response (non-200); when the transport call
raises — connection errors, timeouts — no proxy outcome is recorded at
all. -/
theorem scrape_failure_recording (url : String) (n : ℕ)
    (transport : ℕ → TransportResult) (clock : ℕ → ℚ)
    (po : Option (List ProxyInfo)) (parseFn : String → Option PageData)
    (hfail : ∀ i, attemptFails (transport i) = true) :
    (scrape url true n transport clock po parseFn).page = none ∧
    (scrape url true n transport clock po parseFn).events.getLast? =
      some (Event.metricsRecord url false 0 none) ∧
    (∀ status rt body p,
      transport (n - 1) = TransportResult.responds status rt body →
      (scrape url true n transport clock po parseFn).proxiesUsed.getLast? = some (some p) →
      Event.proxyOutcome p false rt ∈
        (scrape url true n transport clock po parseFn).events) := by
  cases n with
  | zero =>
    refine ⟨rfl, by simp [scrape, fetchRetry], ?_⟩
    intro status rt body p htr hlast
    simp [scrape, fetchRetry] at hlast
  | succ f =>
    obtain ⟨h1, h2, h3⟩ := fetchRetry_fail_run transport clock hfail f 0 po
    have hsc : scrape url true (f + 1) transport clock po parseFn =
        { pool := (fetchRetry transport clock po (f + 1) 0).pool,
          proxiesUsed := (fetchRetry transport clock po (f + 1) 0).proxiesUsed,
          events := (fetchRetry transport clock po (f + 1) 0).events ++
            [Event.metricsRecord url false 0 none],
          page := none } := by
      unfold scrape
      rw [if_neg (by simp)]
      dsimp only
      rw [h1]
    refine ⟨by rw [hsc], ?_, ?_⟩
    · rw [hsc]
      dsimp only
      simp
    · intro status rt body p htr hlast
      rw [hsc] at hlast ⊢
      dsimp only at hlast ⊢
      have htr' : transport (0 + f) = TransportResult.responds status rt body := by
        simpa using htr
      exact List.mem_append.mpr (Or.inl (h3 status rt body p htr' hlast))

/-- Witness for C1 (amended): three attempts, each a 403 response through
the single healthy proxy "p". -/
theorem scrape_failure_recording_witness :
    (scrape "u" true 3 (fun _ => TransportResult.responds 403 2 "x") (fun _ => 0)
        (some [ProxyInfo.mk "p" 100 0 0 0 0]) (fun _ => none)).page = none ∧
    (scrape "u" true 3 (fun _ => TransportResult.responds 403 2 "x") (fun _ => 0)
        (some [ProxyInfo.mk "p" 100 0 0 0 0]) (fun _ => none)).events.getLast? =
      some (Event.metricsRecord "u" false 0 none) ∧
    (∀ status rt body p,
      (fun _ => TransportResult.responds 403 2 "x" : ℕ → TransportResult) (3 - 1) =
        TransportResult.responds status rt body →
      (scrape "u" true 3 (fun _ => TransportResult.responds 403 2 "x") (fun _ => 0)
          (some [ProxyInfo.mk "p" 100 0 0 0 0]) (fun _ => none)).proxiesUsed.getLast? =
        some (some p) →
      Event.proxyOutcome p false rt ∈
        (scrape "u" true 3 (fun _ => TransportResult.responds 403 2 "x") (fun _ => 0)
            (some [ProxyInfo.mk "p" 100 0 0 0 0]) (fun _ => none)).events) :=
  scrape_failure_recording "u" 3 (fun _ => TransportResult.responds 403 2 "x") (fun _ => 0)
    (some [ProxyInfo.mk "p" 100 0 0 0 0]) (fun _ => none)
    (by intro i
        show attemptFails (TransportResult.responds 403 2 "x") = true
        decide)

/-- C1 counterexample: a URL whose three fetch attempts all raise at the
transport level (connection error), with a configured healthy proxy that
is selected and used on every attempt. The run fails terminally, records
the failed metrics event with response time 0 — but no proxy-outcome call
is ever made, refuting the claim that `update_proxy_performance` is
invoked with success=false for the last proxy used. -/
theorem scrape_proxy_outcome_cex :
    (scrape "u" true 3 (fun _ => TransportResult.raises) (fun _ => 0)
        (some [ProxyInfo.mk "p" 100 0 0 0 0]) (fun _ => none)).proxiesUsed =
      [some "p", some "p", some "p"] ∧
    (scrape "u" true 3 (fun _ => TransportResult.raises) (fun _ => 0)
        (some [ProxyInfo.mk "p" 100 0 0 0 0]) (fun _ => none)).events =
      [Event.metricsRecord "u" false 0 none] ∧
    (scrape "u" true 3 (fun _ => TransportResult.raises) (fun _ => 0)
        (some [ProxyInfo.mk "p" 100 0 0 0 0]) (fun _ => none)).page = none := by
  refine ⟨?_, ?_, ?_⟩ <;> decide

end Scraper
